import Mathlib

/-!
Shallow embedding of the `pytest_tuitest` core (process/pty harness and
terminal convergence model) from `src/pytest_tuitest/process.py`,
`terminal.py`, `colors.py` and `styles.py`, together with theorems settling
the claims about it.

Modelling conventions:
* Python `bytes` are `List Nat`; Python `str` is Lean `String`.
* Python `dict[str, str]` is an insertion-ordered association list
  `List (String × String)`; `dictInsert` mirrors `d[k] = v` (update the first
  occurrence in place, else append) and `dictLookup` mirrors `d[k]` / `k in d`.
* OS interaction (reads of the pty master, the capture pipes, `waitpid`,
  `select`, `time.time()`) is modelled by explicit oracles: a read result
  value, pipe contents, a list of pending pty read outcomes, a list of
  `select` results, and a list of clock readings.
* The pyte emulator is an external collaborator of the code under analysis;
  it is modelled as an abstract `Emulator` record of a feed function and
  typed cell accessors, exactly the interface `terminal.py` uses.
* Exceptions are `Except` errors; methods that mutate the object return the
  post-state alongside the result, so that state changes made before an
  exception propagates stay observable.
-/

namespace Tuitest

/-! ## Python dict model -/

/-- `d[k] = v` on an insertion-ordered dict: update the first occurrence of
`k` in place, otherwise append `(k, v)` at the end. -/
def dictInsert : List (String × String) → String → String → List (String × String)
  | [], k, v => [(k, v)]
  | (k', v') :: rest, k, v =>
    if k' = k then (k', v) :: rest else (k', v') :: dictInsert rest k v

/-- `d[k]` / `k in d`: first binding of `k`, if any. -/
def dictLookup : List (String × String) → String → Option String
  | [], _ => none
  | (k', v') :: rest, k => if k' = k then some v' else dictLookup rest k

/-- Keys of a dict, in order. -/
def dictKeys (d : List (String × String)) : List String := d.map Prod.fst

/-! ## `process.py` -/

/-- `overlay_environment(env1, env2)`: copy `env1`, then assign each binding
of `env2` over it (env2 wins on key collision); a `None` overlay yields the
copy of `env1` unchanged. -/
def overlay_environment (env1 : List (String × String))
    (env2 : Option (List (String × String))) : List (String × String) :=
  match env2 with
  | none => env1
  | some l2 => l2.foldl (fun acc kv => dictInsert acc kv.1 kv.2) env1

/-- The environment built for the child in `Process.__init__`: the base
`{TERM: linux, COLUMNS: str(columns), LINES: str(lines)}` with the
`additional_env` overlay applied over it. -/
def child_env (columns lines : Nat) (additional_env : Option (List (String × String))) :
    List (String × String) :=
  overlay_environment
    [("TERM", "linux"), ("COLUMNS", toString columns), ("LINES", toString lines)]
    additional_env

/-- Outcome of the single `os.read(self._child_fd, max_size)` call inside
`Process.get_new_output`: data (possibly empty, which is how the OS signals
end-of-file on a pipe/pty), a `BlockingIOError`, or another `OSError`
carrying an errno value. -/
inductive ReadResult
  | ok (data : List Nat)
  | blockingErr
  | osErr (errnoVal : Nat)
  deriving DecidableEq, Repr

/-- errno.EIO on Linux. -/
def eioErrno : Nat := 5

/-- Ways `Process.get_new_output` can raise: the `ProcessFinished` control
signal, or the `UnboundLocalError` that a non-EIO `OSError` falls through
to (the `except OSError` handler neither returns nor raises in that case,
and `data` is then used unassigned). -/
inductive GnoErr
  | processFinished
  | unboundLocal
  deriving DecidableEq, Repr

/-- `Process.get_new_output`, as a function of the capture/redirect flags
fixed at construction (`_stdin_redirected`, `_stdout_redirected`,
`_stderr_redirected`) and of the outcome of the one OS read it performs. -/
def get_new_output (stdinRedirected stdoutRedirected stderrRedirected : Bool)
    (r : ReadResult) : Except GnoErr (List Nat) :=
  match r with
  | .blockingErr => .ok []
  | .osErr e =>
    let all_io_redirected := stdinRedirected && stdoutRedirected && stderrRedirected
    if e = eioErrno && all_io_redirected then .ok []
    else if e = eioErrno then .error .processFinished
    else .error .unboundLocal
  | .ok data => if data = [] then .error .processFinished else .ok data

/-- The mutable fields of a `Process` object relevant to exit handling:
whether each capture pipe exists (`_child_stdout_r`/`_child_stderr_r` are
not `None`), the cached capture buffers, and the cached exit status. -/
structure ProcState where
  captureStdout : Bool
  captureStderr : Bool
  capturedStdout : Option (List Nat)
  capturedStderr : Option (List Nat)
  exitStatus : Option Nat
  deriving DecidableEq, Repr

/-- The `Process` fields as `__init__` leaves them for given capture flags:
no buffer populated, no exit status. -/
def initProcState (capture_stdout capture_stderr : Bool) : ProcState :=
  ⟨capture_stdout, capture_stderr, none, none, none⟩

/-- The OS facts `Process.wait_for_finished` consumes: the status indication
`os.waitpid` reports, and the total bytes each capture pipe holds (what the
`read_all` loop of `_update_captured_stds` accumulates until the empty
read). -/
structure ProcOS where
  exitIndication : Nat
  stdoutPipe : List Nat
  stderrPipe : List Nat

/-- Which OS operations a call performed: a `waitpid`, reads of the stdout
capture pipe, reads of the stderr capture pipe. -/
structure ProcEffects where
  waited : Bool
  stdoutReads : Bool
  stderrReads : Bool
  deriving DecidableEq, Repr

/-- `Process._update_captured_stds`: drain each existing capture pipe into
its buffer, but only if the buffer is still unpopulated. Returns the new
state and whether each pipe was read. -/
def update_captured_stds (os : ProcOS) (s : ProcState) : ProcState × Bool × Bool :=
  let (newOut, readOut) :=
    if s.captureStdout ∧ s.capturedStdout = none
    then (some os.stdoutPipe, true) else (s.capturedStdout, false)
  let (newErr, readErr) :=
    if s.captureStderr ∧ s.capturedStderr = none
    then (some os.stderrPipe, true) else (s.capturedStderr, false)
  ({ s with capturedStdout := newOut, capturedStderr := newErr }, readOut, readErr)

/-- `Process.wait_for_finished`: replay the cached triple when the exit
status is already set; otherwise `waitpid`, cache `indication >> 8`, drain
the capture pipes once, and return the triple. Also reports the OS
operations performed. -/
def wait_for_finished (os : ProcOS) (s : ProcState) :
    (Nat × Option (List Nat) × Option (List Nat)) × ProcState × ProcEffects :=
  match s.exitStatus with
  | some st => ((st, s.capturedStdout, s.capturedStderr), s, ⟨false, false, false⟩)
  | none =>
    let st := os.exitIndication / 2 ^ 8
    let s1 := { s with exitStatus := some st }
    let (s2, readOut, readErr) := update_captured_stds os s1
    ((st, s2.capturedStdout, s2.capturedStderr), s2, ⟨true, readOut, readErr⟩)

/-! ## `colors.py` and `styles.py` -/

/-- `ColorNamed` enumeration from `colors.py`: the 16 colors of the 16-color
set plus `DEFAULT`. -/
inductive ColorNamed
  | BLACK | RED | GREEN | YELLOW | BLUE | MAGENTA | CYAN | WHITE
  | BRIGHT_BLACK | BRIGHT_RED | BRIGHT_GREEN | BRIGHT_YELLOW
  | BRIGHT_BLUE | BRIGHT_MAGENTA | BRIGHT_CYAN | BRIGHT_WHITE
  | DEFAULT
  deriving DecidableEq, Repr

/-- All members of `ColorNamed`, in declaration order. -/
def ColorNamed.all : List ColorNamed :=
  [.BLACK, .RED, .GREEN, .YELLOW, .BLUE, .MAGENTA, .CYAN, .WHITE,
   .BRIGHT_BLACK, .BRIGHT_RED, .BRIGHT_GREEN, .BRIGHT_YELLOW,
   .BRIGHT_BLUE, .BRIGHT_MAGENTA, .BRIGHT_CYAN, .BRIGHT_WHITE,
   .DEFAULT]

/-- `Style` enumeration from `styles.py`. -/
inductive Style
  | BOLD | ITALIC | UNDERLINE | BLINKING | INVERSE | STRIKETHROUGH
  deriving DecidableEq, Repr

/-! ## `terminal.py` -/

/-- `_PYTE_TO_COLOR_NAMED_MAP`: pyte color-name string to named color,
including pyte's `bfightmagenta` typo entry. -/
def pyteToColorNamedMap : List (String × ColorNamed) :=
  [("black", .BLACK), ("red", .RED), ("green", .GREEN), ("brown", .YELLOW),
   ("blue", .BLUE), ("magenta", .MAGENTA), ("cyan", .CYAN), ("white", .WHITE),
   ("brightblack", .BRIGHT_BLACK), ("brightred", .BRIGHT_RED),
   ("brightgreen", .BRIGHT_GREEN), ("brightbrown", .BRIGHT_YELLOW),
   ("brightblue", .BRIGHT_BLUE), ("brightmagenta", .BRIGHT_MAGENTA),
   ("bfightmagenta", .BRIGHT_MAGENTA), ("brightcyan", .BRIGHT_CYAN),
   ("brightwhite", .BRIGHT_WHITE), ("default", .DEFAULT)]

/-- Lookup in `_PYTE_TO_COLOR_NAMED_MAP` (`in` test plus indexing). -/
def lookupPyteColor : List (String × ColorNamed) → String → Option ColorNamed
  | [], _ => none
  | (k, c) :: rest, s => if k = s then some c else lookupPyteColor rest s

/-- `string.hexdigits` membership. -/
def isHexdigit (c : Char) : Bool :=
  c ∈ "0123456789abcdefABCDEF".toList

/-- `_is_rgb_string`: all characters hex digits and length exactly 6. -/
def is_rgb_string (s : String) : Bool :=
  let all_hex_digits := s.toList.all isHexdigit
  let good_len := s.length = 6
  good_len && all_hex_digits

/-- `_STYLE_PYTE_ATTRIBUTE_MAP`: style to pyte cell attribute name. -/
def stylePyteAttributeMap (s : Style) : String :=
  match s with
  | .BOLD => "bold"
  | .ITALIC => "italics"
  | .UNDERLINE => "underscore"
  | .BLINKING => "blink"
  | .INVERSE => "reverse"
  | .STRIKETHROUGH => "strikethrough"

/-- The pyte emulation collaborator (`pyte.Screen` + `pyte.ByteStream`),
abstracted as the interface `terminal.py` uses: `feed` consumes a byte
chunk; the accessors read a cell's `data`, `fg`, `bg`, and named boolean
style attributes from `screen.buffer[line][column]`. -/
structure Emulator (σ : Type) where
  feed : σ → List Nat → σ
  cellData : σ → Int → Int → Char
  cellFg : σ → Int → Int → String
  cellBg : σ → Int → Int → String
  cellStyle : σ → Int → Int → String → Bool

/-- One outcome of a `Process.get_new_output` call as seen by the
`Terminal`: a chunk of bytes (possibly empty, meaning no data right now) or
the `ProcessFinished` signal. -/
inductive Outcome
  | data (b : List Nat)
  | finished
  deriving DecidableEq, Repr

/-- The `Terminal` object state: the emulator screen state, the
`_process_running` flag, the terminal dimensions (`process.lines`,
`process.columns`, immutable), and the oracle of pending harness read
outcomes (what successive `get_new_output` calls will yield). -/
structure TermState (σ : Type) where
  screen : σ
  processRunning : Bool
  lines : Int
  columns : Int
  outputs : List Outcome

/-- The read loop inside `Terminal._update_screen`, running while the
process is believed running: take the next read outcome; `ProcessFinished`
clears the running flag and stops; an empty chunk stops; a non-empty chunk
is fed to the emulator. Returns
(screen updated?, running flag, screen, remaining outcomes). An exhausted
oracle behaves like an empty read (no more data right now). -/
def drainGo {σ : Type} (E : Emulator σ) :
    List Outcome → σ → Bool → Bool × Bool × σ × List Outcome
  | [], sc, upd => (upd, true, sc, [])
  | .finished :: rest, sc, upd => (upd, false, sc, rest)
  | .data b :: rest, sc, upd =>
    if b = [] then (upd, true, sc, rest)
    else drainGo E rest (E.feed sc b) true

/-- `Terminal._update_screen`: drain all currently available output into
the emulator; a no-op when the process is already known finished. Returns
whether the screen changed, and the new state. -/
def update_screen {σ : Type} (E : Emulator σ) (st : TermState σ) :
    Bool × TermState σ :=
  if st.processRunning then
    let (upd, running, sc, rem) := drainGo E st.outputs st.screen false
    (upd, { st with screen := sc, processRunning := running, outputs := rem })
  else
    (false, st)

/-- Errors raised by `Terminal` queries: `OutsideBounds` and
`UnrecognizedColor`. -/
inductive TermErr
  | outsideBounds
  | unrecognizedColor
  deriving DecidableEq, Repr

/-- `Terminal.get_string_at`: validate the requested span against the
terminal dimensions (raising `OutsideBounds` if invalid), then refresh the
screen and read `length` cell characters from `screen.buffer[line]`.
Returns the result together with the post-call object state. -/
def get_string_at {σ : Type} (E : Emulator σ) (st : TermState σ)
    (line column length : Int) : Except TermErr (List Char) × TermState σ :=
  let column_start_outside := column < 0 ∨ column ≥ st.columns
  let column_end := column + length - 1
  let column_end_outside := column_end < 0 ∨ column_end ≥ st.columns
  let line_outside := line < 0 ∨ line ≥ st.lines
  let length_invalid := length ≤ 0
  if column_start_outside ∨ column_end_outside ∨ line_outside ∨ length_invalid then
    (.error .outsideBounds, st)
  else
    let st' := (update_screen E st).2
    let chars := (List.range length.toNat).map
      (fun offset => E.cellData st'.screen line (column + offset))
    (.ok chars, st')

/-- `Terminal._raise_if_outside_bounds`: true exactly when the coordinates
are outside the terminal. -/
def outside_bounds {σ : Type} (st : TermState σ) (line column : Int) : Prop :=
  line < 0 ∨ line ≥ st.lines ∨ column < 0 ∨ column ≥ st.columns

instance {σ : Type} (st : TermState σ) (line column : Int) :
    Decidable (outside_bounds st line column) := by
  unfold outside_bounds; infer_instance

/-- `Terminal._get_attribute_at`: refresh the screen first, then validate
the coordinates (raising `OutsideBounds`), then read the requested cell
attribute. The dynamic `getattr` of the source is modelled by passing the
matching typed accessor. -/
def get_attribute_at {σ α : Type} (E : Emulator σ) (st : TermState σ)
    (line column : Int) (get : σ → Int → Int → α) :
    Except TermErr α × TermState σ :=
  let st' := (update_screen E st).2
  ((if outside_bounds st' line column then .error .outsideBounds
    else .ok (get st'.screen line column)), st')

/-- Decode a pyte color string as `get_foreground_at`/`get_background_at`
do: a mapped named color, else a 6-hex-digit RGB string, else
`UnrecognizedColor`. -/
def decodeColor (pyte_color : String) : Except TermErr (ColorNamed ⊕ String) :=
  match lookupPyteColor pyteToColorNamedMap pyte_color with
  | some c => .ok (.inl c)
  | none =>
    if is_rgb_string pyte_color then .ok (.inr pyte_color)
    else .error .unrecognizedColor

/-- `Terminal.get_foreground_at`. -/
def get_foreground_at {σ : Type} (E : Emulator σ) (st : TermState σ)
    (line column : Int) : Except TermErr (ColorNamed ⊕ String) × TermState σ :=
  let r := get_attribute_at E st line column E.cellFg
  ((match r.1 with
    | .error e => .error e
    | .ok pyte_color => decodeColor pyte_color), r.2)

/-- `Terminal.get_background_at`. -/
def get_background_at {σ : Type} (E : Emulator σ) (st : TermState σ)
    (line column : Int) : Except TermErr (ColorNamed ⊕ String) × TermState σ :=
  let r := get_attribute_at E st line column E.cellBg
  ((match r.1 with
    | .error e => .error e
    | .ok pyte_color => decodeColor pyte_color), r.2)

/-- `Terminal.has_style_at`. -/
def has_style_at {σ : Type} (E : Emulator σ) (st : TermState σ)
    (style : Style) (line column : Int) : Except TermErr Bool × TermState σ :=
  get_attribute_at E st line column
    (fun sc l c => E.cellStyle sc l c (stylePyteAttributeMap style))

/-! ### `Terminal.wait_for_stable_output`

Real time is modelled by an oracle list of successive `time.time()`
readings and `select` readiness is modelled by an oracle list of
`wait_for_output` results. The `while` loop gets a fuel bound on the
number of iterations it may run, consumed only when the loop body runs;
exhausted fuel is reported as a distinguished outcome. -/

/-- One `time.time()` call: pop the next clock reading (0 once the oracle
is exhausted). -/
def timeRead : List ℚ → ℚ × List ℚ
  | [] => (0, [])
  | t :: ts => (t, ts)

/-- One `Process.wait_for_output(timeout_sec=0.01)` call: pop the next
readiness result (false once the oracle is exhausted). -/
def readyRead : List Bool → Bool × List Bool
  | [] => (false, [])
  | b :: bs => (b, bs)

/-- Decision of the `should_poll` closure, instrumented with the times it
compared so the loop outcome can be characterised: stop because the process
has finished; stop because the screen has been stable (carrying `now` and
`last_update`); raise `TimedOut` (carrying `now` and `last_update`); or
keep polling. -/
inductive PollDecision
  | stopFinished
  | stopStable (now lastUpdate : ℚ)
  | raiseTimeout (now lastUpdate : ℚ)
  | keepPolling
  deriving DecidableEq, Repr

/-- The `should_poll` closure of `Terminal.wait_for_stable_output`: if the
process has finished, stop (stable); else read the clock once; if the time
since the last screen change has reached `stable_time_sec`, stop (stable);
else if the time since the call began exceeds `max_wait_sec`, raise
`TimedOut`; else continue polling. -/
def should_poll (stable_time_sec max_wait_sec started last_update : ℚ)
    (processRunning : Bool) (clock : List ℚ) : PollDecision × List ℚ :=
  if processRunning = false then
    (.stopFinished, clock)
  else if (timeRead clock).1 - last_update ≥ stable_time_sec then
    (.stopStable (timeRead clock).1 last_update, (timeRead clock).2)
  else if (timeRead clock).1 - started > max_wait_sec then
    (.raiseTimeout (timeRead clock).1 last_update, (timeRead clock).2)
  else
    (.keepPolling, (timeRead clock).2)

/-- Outcome of `wait_for_stable_output`: normal return because the process
had finished, normal return because the screen was stable, the `TimedOut`
exception (instrumented with the times compared at the deciding check), or
exhausted loop fuel. -/
inductive WaitResult
  | stableFinished
  | stableQuiet (now lastUpdate : ℚ)
  | timedOut (now lastUpdate : ℚ)
  | fuelOut
  deriving DecidableEq, Repr

/-- The `while should_poll():` loop of `wait_for_stable_output`: each
iteration waits (up to 10ms) for output readiness; when ready, drains, and
on a screen change reads the clock into `last_update`. Returns the outcome,
the final object state and the remaining oracles. -/
def pollLoop {σ : Type} (E : Emulator σ) (stable_time_sec max_wait_sec started : ℚ)
    (fuel : Nat) (last_update : ℚ) (clock : List ℚ) (waits : List Bool)
    (st : TermState σ) : WaitResult × TermState σ × List ℚ × List Bool :=
  match should_poll stable_time_sec max_wait_sec started last_update
      st.processRunning clock with
    | (.stopFinished, c) => (.stableFinished, st, c, waits)
    | (.stopStable n l, c) => (.stableQuiet n l, st, c, waits)
    | (.raiseTimeout n l, c) => (.timedOut n l, st, c, waits)
    | (.keepPolling, c) =>
      match fuel with
      | 0 => (.fuelOut, st, c, waits)
      | fuel' + 1 =>
        if (readyRead waits).1 = false then
          pollLoop E stable_time_sec max_wait_sec started fuel' last_update c
            (readyRead waits).2 st
        else if (update_screen E st).1 then
          pollLoop E stable_time_sec max_wait_sec started fuel' (timeRead c).1
            (timeRead c).2 (readyRead waits).2 (update_screen E st).2
        else
          pollLoop E stable_time_sec max_wait_sec started fuel' last_update c
            (readyRead waits).2 (update_screen E st).2

/-- `Terminal.wait_for_stable_output`: an immediate drain, two clock reads
initialising `started` and `last_update`, then the poll loop. -/
def wait_for_stable_output {σ : Type} (E : Emulator σ) (fuel : Nat)
    (stable_time_sec max_wait_sec : ℚ) (clock : List ℚ) (waits : List Bool)
    (st : TermState σ) : WaitResult × TermState σ × List ℚ × List Bool :=
  let st1 := (update_screen E st).2
  let started := (timeRead clock).1
  let c1 := (timeRead clock).2
  let last_update := (timeRead c1).1
  let c2 := (timeRead c1).2
  pollLoop E stable_time_sec max_wait_sec started fuel last_update c2 waits st1

/-! ### Operation-level view of a `Terminal`

For the permanence of the finished flag, all public `Terminal` operations
are gathered into one step function over the object state plus its oracles
(clock readings, `select` results, pending harness reads). -/

/-- A world: the `Terminal` object state together with the oracles its
operations consume. -/
structure World (σ : Type) where
  term : TermState σ
  clock : List ℚ
  waits : List Bool

/-- One public `Terminal` operation. -/
inductive TermOp
  | opUpdateScreen
  | opGetStringAt (line column length : Int)
  | opGetForegroundAt (line column : Int)
  | opGetBackgroundAt (line column : Int)
  | opHasStyleAt (style : Style) (line column : Int)
  | opWaitForOutput
  | opWaitForStable (fuel : Nat) (stable_time_sec max_wait_sec : ℚ)
  | opSend (characters : List Nat)

/-- Apply one `Terminal` operation to a world, discarding the result value
(queries keep their state effect; `wait_for_output` consumes one `select`
result; `send` writes to the pty and touches no reads). -/
def stepOp {σ : Type} (E : Emulator σ) (w : World σ) : TermOp → World σ
  | .opUpdateScreen => { w with term := (update_screen E w.term).2 }
  | .opGetStringAt line column length =>
    { w with term := (get_string_at E w.term line column length).2 }
  | .opGetForegroundAt line column =>
    { w with term := (get_foreground_at E w.term line column).2 }
  | .opGetBackgroundAt line column =>
    { w with term := (get_background_at E w.term line column).2 }
  | .opHasStyleAt style line column =>
    { w with term := (has_style_at E w.term style line column).2 }
  | .opWaitForOutput => { w with waits := (readyRead w.waits).2 }
  | .opWaitForStable fuel stable_time_sec max_wait_sec =>
    let (_, st', c', ws') :=
      wait_for_stable_output E fuel stable_time_sec max_wait_sec w.clock w.waits w.term
    { term := st', clock := c', waits := ws' }
  | .opSend _ => w

/-- Apply a sequence of `Terminal` operations in order. -/
def runOps {σ : Type} (E : Emulator σ) (w : World σ) : List TermOp → World σ
  | [] => w
  | op :: ops => runOps E (stepOp E w op) ops

/-! ### Concrete instances used to evaluate the model on specific inputs -/

/-- A concrete emulator over a log of fed chunks: `feed` appends the chunk;
cells read as blanks with default colors and no styles. -/
def logEmu : Emulator (List (List Nat)) where
  feed := fun sc b => sc ++ [b]
  cellData := fun _ _ _ => ' '
  cellFg := fun _ _ _ => "default"
  cellBg := fun _ _ _ => "default"
  cellStyle := fun _ _ _ _ => false

/-- A concrete emulator whose cells report a foreground color string that is
neither in the pyte color map nor a 6-hex-digit RGB string. -/
def unrecEmu : Emulator (List (List Nat)) where
  feed := fun sc b => sc ++ [b]
  cellData := fun _ _ _ => ' '
  cellFg := fun _ _ _ => "nonsense"
  cellBg := fun _ _ _ => "default"
  cellStyle := fun _ _ _ _ => false

/-- A freshly constructed 24×80 terminal state with the given pending
harness read outcomes. -/
def sampleState (outs : List Outcome) : TermState (List (List Nat)) :=
  { screen := [], processRunning := true, lines := 24, columns := 80, outputs := outs }

/-- A terminal state that has already observed end-of-stream, with some
screen content and a stray pending outcome that must never be consumed. -/
def finishedState : TermState (List (List Nat)) :=
  { screen := [[104, 105]], processRunning := false, lines := 24, columns := 80,
    outputs := [.data [65]] }

/-! ## Theorems -/

/-! ### Helper lemmas -/

theorem dictLookup_dictInsert_self (d : List (String × String)) (k v : String) :
    dictLookup (dictInsert d k v) k = some v := by
  induction d with
  | nil => simp [dictInsert, dictLookup]
  | cons kv rest ih =>
    obtain ⟨k', v'⟩ := kv
    by_cases h : k' = k
    · simp [dictInsert, dictLookup, h]
    · simp [dictInsert, dictLookup, h, ih]

theorem dictLookup_dictInsert_other (d : List (String × String)) (k v k2 : String)
    (h : k2 ≠ k) : dictLookup (dictInsert d k v) k2 = dictLookup d k2 := by
  have hk2k : ¬k = k2 := fun hh => h hh.symm
  induction d with
  | nil => simp [dictInsert, dictLookup, hk2k]
  | cons kv rest ih =>
    obtain ⟨k', v'⟩ := kv
    by_cases hk : k' = k
    · subst hk
      simp [dictInsert, dictLookup, hk2k]
    · by_cases hk2 : k' = k2
      · subst hk2
        simp [dictInsert, dictLookup, h, hk]
      · simp [dictInsert, dictLookup, hk, hk2, ih]

theorem dictLookup_eq_none_of_not_mem (d : List (String × String)) (k : String)
    (h : k ∉ dictKeys d) : dictLookup d k = none := by
  induction d with
  | nil => rfl
  | cons kv rest ih =>
    obtain ⟨k', v'⟩ := kv
    have hc : k ∉ k' :: dictKeys rest := h
    simp only [List.mem_cons, not_or] at hc
    have h1 : ¬k' = k := fun hh => hc.1 hh.symm
    simp [dictLookup, h1, ih hc.2]

/-- Lookup in an overlaid environment: the overlay's binding wins, the base
answers otherwise (overlay keys assumed unique, as they are for a Python
dict). -/
theorem overlay_lookup (l2 : List (String × String)) (env1 : List (String × String))
    (h : (dictKeys l2).Nodup) (k : String) :
    dictLookup (overlay_environment env1 (some l2)) k =
      (match dictLookup l2 k with
       | some v => some v
       | none => dictLookup env1 k) := by
  induction l2 generalizing env1 with
  | nil => simp [overlay_environment, dictLookup]
  | cons kv rest ih =>
    obtain ⟨k0, v0⟩ := kv
    simp only [dictKeys, List.map_cons, List.nodup_cons] at h
    have step : overlay_environment env1 (some ((k0, v0) :: rest)) =
        overlay_environment (dictInsert env1 k0 v0) (some rest) := rfl
    rw [step, ih (dictInsert env1 k0 v0) h.2 ]
    by_cases hk : k0 = k
    · subst hk
      have hnone : dictLookup rest k0 = none :=
        dictLookup_eq_none_of_not_mem rest k0 h.1
      simp [dictLookup, hnone, dictLookup_dictInsert_self]
    · simp only [dictLookup, hk, if_neg hk]
      cases dictLookup rest k with
      | none => simp [dictLookup_dictInsert_other env1 k0 v0 k (fun hh => hk hh.symm)]
      | some v => simp

theorem dictLookup_isSome_iff_mem (d : List (String × String)) (k : String) :
    (dictLookup d k).isSome = true ↔ k ∈ dictKeys d := by
  induction d with
  | nil => simp [dictLookup, dictKeys]
  | cons kv rest ih =>
    obtain ⟨k', v'⟩ := kv
    have hc : dictKeys ((k', v') :: rest) = k' :: dictKeys rest := rfl
    rw [hc]
    by_cases h : k' = k
    · simp [dictLookup, h]
    · have h2 : ¬k = k' := fun hh => h hh.symm
      simp [dictLookup, h, h2, ih]

/-! ### C1 -/

/-- C1: `get_string_at(line, column, length)` raises `OutsideBounds` exactly
when the request violates `0 ≤ line < lines`, `0 ≤ column < columns`,
`length > 0`, or `column + length ≤ columns`; a valid request returns a
string, and the classification is the same in every process state. -/
theorem C1_get_string_at_bounds {σ : Type} (E : Emulator σ) (st : TermState σ)
    (line column length : Int) :
    ((get_string_at E st line column length).1 = .error .outsideBounds ↔
      ¬(0 ≤ line ∧ line < st.lines ∧ 0 ≤ column ∧ column < st.columns ∧
        0 < length ∧ column + length ≤ st.columns)) ∧
    ((∃ cs, (get_string_at E st line column length).1 = .ok cs) ↔
      (0 ≤ line ∧ line < st.lines ∧ 0 ≤ column ∧ column < st.columns ∧
        0 < length ∧ column + length ≤ st.columns)) := by
  simp only [get_string_at]
  by_cases hb : (column < 0 ∨ column ≥ st.columns) ∨
      (column + length - 1 < 0 ∨ column + length - 1 ≥ st.columns) ∨
      (line < 0 ∨ line ≥ st.lines) ∨ length ≤ 0
  · rw [if_pos hb]
    constructor
    · simp only [true_iff]
      omega
    · constructor
      · rintro ⟨cs, hcs⟩
        exact absurd hcs (by simp)
      · intro hc
        omega
  · rw [if_neg hb]
    constructor
    · constructor
      · intro hcontra
        exact absurd hcontra (by simp)
      · intro hc
        exfalso
        omega
    · simp only [Except.ok.injEq, exists_eq', true_iff]
      omega

/-! ### C2 -/

/-- C2: `get_new_output` raises `ProcessFinished` exactly when the OS read
returned zero bytes or failed with `EIO` while not all of stdin, stdout and
stderr are redirected; with all three redirected an `EIO` yields `b""`, and
a `BlockingIOError` always yields `b""`, never end-of-stream. -/
theorem C2_get_new_output_eof (si so se : Bool) (r : ReadResult) :
    (get_new_output si so se r = .error .processFinished ↔
      (r = .ok [] ∨ (r = .osErr eioErrno ∧ ¬(si = true ∧ so = true ∧ se = true)))) ∧
    ((si = true ∧ so = true ∧ se = true) →
      get_new_output si so se (.osErr eioErrno) = .ok []) ∧
    get_new_output si so se .blockingErr = .ok [] := by
  refine ⟨?_, ?_, rfl⟩
  · cases r with
    | blockingErr => simp [get_new_output]
    | ok data =>
      by_cases h : data = [] <;> simp [get_new_output, h]
    | osErr e =>
      by_cases he : e = eioErrno
      · subst he
        cases si <;> cases so <;> cases se <;> simp [get_new_output]
      · simp [get_new_output, he]
  · rintro ⟨h1, h2, h3⟩
    subst h1; subst h2; subst h3
    rfl

/-! ### C4 -/

/-- C4: `wait_for_finished` is idempotent: after the first call on a fresh
process returns its triple, a second call (under any OS state) returns the
identical triple and the identical object state, performing no `waitpid`
and no reads of the capture pipes. -/
theorem C4_wait_for_finished_idempotent (os os2 : ProcOS) (cso cse : Bool) :
    (wait_for_finished os2 (wait_for_finished os (initProcState cso cse)).2.1).1 =
      (wait_for_finished os (initProcState cso cse)).1 ∧
    (wait_for_finished os2 (wait_for_finished os (initProcState cso cse)).2.1).2.1 =
      (wait_for_finished os (initProcState cso cse)).2.1 ∧
    (wait_for_finished os2 (wait_for_finished os (initProcState cso cse)).2.1).2.2 =
      ⟨false, false, false⟩ := by
  cases cso <;> cases cse <;>
    simp [wait_for_finished, initProcState, update_captured_stds]

/-! ### C5 -/

/-- C5: in the triple returned by `wait_for_finished`, a channel whose
capture flag was false yields `None`, and a channel whose capture flag was
true but whose pipe produced no bytes yields the empty buffer. -/
theorem C5_capture_none_vs_empty (exitInd : Nat) (soPipe sePipe : List Nat)
    (cso cse : Bool) :
    (wait_for_finished ⟨exitInd, soPipe, sePipe⟩ (initProcState false cse)).1.2.1 = none ∧
    (wait_for_finished ⟨exitInd, soPipe, sePipe⟩ (initProcState cso false)).1.2.2 = none ∧
    (wait_for_finished ⟨exitInd, [], sePipe⟩ (initProcState true cse)).1.2.1 = some [] ∧
    (wait_for_finished ⟨exitInd, soPipe, []⟩ (initProcState cso true)).1.2.2 = some [] := by
  cases cso <;> cases cse <;>
    simp [wait_for_finished, initProcState, update_captured_stds]

/-! ### C6 -/

/-- C6: the merged environment answers every key of the overlay with the
overlay's value and every other key with the base's value (so it contains
every key of both, with the overlay winning on collision); a `None` overlay
yields the base unchanged; and the child's environment is exactly this
merge applied over the base `{TERM: linux, COLUMNS, LINES}`. -/
theorem C6_environment_overlay (env1 l2 : List (String × String))
    (columns lines : Nat) (h : (dictKeys l2).Nodup) :
    (∀ k, dictLookup (overlay_environment env1 (some l2)) k =
      (match dictLookup l2 k with
       | some v => some v
       | none => dictLookup env1 k)) ∧
    (∀ k, (dictLookup (overlay_environment env1 (some l2)) k).isSome = true ↔
      (k ∈ dictKeys env1 ∨ k ∈ dictKeys l2)) ∧
    overlay_environment env1 none = env1 ∧
    (∀ k, dictLookup (child_env columns lines (some l2)) k =
      (match dictLookup l2 k with
       | some v => some v
       | none =>
         dictLookup [("TERM", "linux"), ("COLUMNS", toString columns),
                     ("LINES", toString lines)] k)) := by
  refine ⟨overlay_lookup l2 env1 h, ?_, rfl, overlay_lookup l2 _ h⟩
  intro k
  rw [overlay_lookup l2 env1 h k]
  cases hl : dictLookup l2 k with
  | some v =>
    have hm : k ∈ dictKeys l2 := by
      rw [← dictLookup_isSome_iff_mem, hl]; rfl
    simp [hm]
  | none =>
    have hm : k ∉ dictKeys l2 := by
      rw [← dictLookup_isSome_iff_mem, hl]; simp
    simp [dictLookup_isSome_iff_mem, hm]

/-- Witness for C6 at the spec's own examples: `{A:B}` overlaid with
`{A:C}` answers `C` for `A`; `{A:B}` overlaid with `{C:D}` keeps `B` and
gains `D`; a `None` overlay changes nothing. -/
theorem C6_environment_overlay_witness :
    dictLookup (overlay_environment [("A", "B")] (some [("A", "C")])) "A" = some "C" ∧
    dictLookup (overlay_environment [("A", "B")] (some [("C", "D")])) "A" = some "B" ∧
    dictLookup (overlay_environment [("A", "B")] (some [("C", "D")])) "C" = some "D" ∧
    overlay_environment [("A", "B")] none = [("A", "B")] := by
  refine ⟨?_, ?_, ?_,
    (C6_environment_overlay [("A", "B")] [] 80 24 (by decide)).2.2.1⟩
  · rw [(C6_environment_overlay [("A", "B")] [("A", "C")] 80 24 (by decide)).1 "A"]
    rfl
  · rw [(C6_environment_overlay [("A", "B")] [("C", "D")] 80 24 (by decide)).1 "A"]
    rfl
  · rw [(C6_environment_overlay [("A", "B")] [("C", "D")] 80 24 (by decide)).1 "C"]
    rfl

/-! ### Inversion lemmas for the stability state machine -/

theorem should_poll_stopFinished_inv {sT mW started lu : ℚ} {running : Bool}
    {clock c : List ℚ}
    (h : should_poll sT mW started lu running clock = (.stopFinished, c)) :
    running = false ∧ c = clock := by
  cases running with
  | false => simpa [should_poll] using h.symm
  | true =>
    unfold should_poll at h
    split_ifs at h <;> simp_all

theorem should_poll_stopStable_inv {sT mW started lu n l : ℚ} {running : Bool}
    {clock c : List ℚ}
    (h : should_poll sT mW started lu running clock = (.stopStable n l, c)) :
    running = true ∧ n = (timeRead clock).1 ∧ l = lu ∧ n - l ≥ sT := by
  cases running with
  | false => simp [should_poll] at h
  | true =>
    unfold should_poll at h
    split_ifs at h with h1 h2 <;> simp_all

theorem should_poll_raiseTimeout_inv {sT mW started lu n l : ℚ} {running : Bool}
    {clock c : List ℚ}
    (h : should_poll sT mW started lu running clock = (.raiseTimeout n l, c)) :
    running = true ∧ n = (timeRead clock).1 ∧ l = lu ∧ n - l < sT ∧ n - started > mW := by
  cases running with
  | false => simp [should_poll] at h
  | true =>
    unfold should_poll at h
    split_ifs at h with h1 h2 <;> simp_all

/-- Once the process is known finished, the poll loop exits immediately:
no clock, readiness oracle or harness read is consumed. -/
theorem pollLoop_finished {σ : Type} (E : Emulator σ) (sT mW started : ℚ)
    (fuel : Nat) (lu : ℚ) (clock : List ℚ) (waits : List Bool) (st : TermState σ)
    (h : st.processRunning = false) :
    pollLoop E sT mW started fuel lu clock waits st =
      (.stableFinished, st, clock, waits) := by
  have hsp : should_poll sT mW started lu st.processRunning clock =
      (.stopFinished, clock) := by
    simp [should_poll, h]
  rw [pollLoop.eq_def, hsp]

/-- A `TimedOut` outcome of the poll loop happens only with the process
still running, only past `max_wait_sec` since `started`, and only before
the screen had been unchanged for `stable_time_sec`. -/
theorem pollLoop_timedOut {σ : Type} (E : Emulator σ) (sT mW started : ℚ) :
    ∀ (fuel : Nat) (lu : ℚ) (clock : List ℚ) (waits : List Bool) (st : TermState σ)
      (n l : ℚ),
      (pollLoop E sT mW started fuel lu clock waits st).1 = .timedOut n l →
      (pollLoop E sT mW started fuel lu clock waits st).2.1.processRunning = true ∧
      n - started > mW ∧ n - l < sT := by
  intro fuel
  induction fuel with
  | zero =>
    intro lu clock waits st n l h
    rcases hsp : should_poll sT mW started lu st.processRunning clock with ⟨d, c⟩
    rw [pollLoop.eq_def, hsp] at h ⊢
    cases d with
    | stopFinished => simp at h
    | stopStable n2 l2 => simp at h
    | keepPolling => simp at h
    | raiseTimeout n2 l2 =>
      simp only [WaitResult.timedOut.injEq] at h
      obtain ⟨hn, hl⟩ := h
      subst hn; subst hl
      obtain ⟨hr, _, _, hlt, hgt⟩ := should_poll_raiseTimeout_inv hsp
      exact ⟨hr, hgt, hlt⟩
  | succ fuel ih =>
    intro lu clock waits st n l h
    rcases hsp : should_poll sT mW started lu st.processRunning clock with ⟨d, c⟩
    rw [pollLoop.eq_def, hsp] at h ⊢
    cases d with
    | stopFinished => simp at h
    | stopStable n2 l2 => simp at h
    | raiseTimeout n2 l2 =>
      simp only [WaitResult.timedOut.injEq] at h
      obtain ⟨hn, hl⟩ := h
      subst hn; subst hl
      obtain ⟨hr, _, _, hlt, hgt⟩ := should_poll_raiseTimeout_inv hsp
      exact ⟨hr, hgt, hlt⟩
    | keepPolling =>
      simp only at h ⊢
      split_ifs at h ⊢ with h1 h2
      · exact ih lu c (readyRead waits).2 st n l h
      · exact ih (timeRead c).1 (timeRead c).2 (readyRead waits).2 (update_screen E st).2 n l h
      · exact ih lu c (readyRead waits).2 (update_screen E st).2 n l h

/-- A quiet-stable outcome of the poll loop happens only when the deciding
check saw the screen unchanged for at least `stable_time_sec`. -/
theorem pollLoop_stableQuiet {σ : Type} (E : Emulator σ) (sT mW started : ℚ) :
    ∀ (fuel : Nat) (lu : ℚ) (clock : List ℚ) (waits : List Bool) (st : TermState σ)
      (n l : ℚ),
      (pollLoop E sT mW started fuel lu clock waits st).1 = .stableQuiet n l →
      n - l ≥ sT := by
  intro fuel
  induction fuel with
  | zero =>
    intro lu clock waits st n l h
    rcases hsp : should_poll sT mW started lu st.processRunning clock with ⟨d, c⟩
    rw [pollLoop.eq_def, hsp] at h
    cases d with
    | stopFinished => simp at h
    | raiseTimeout n2 l2 => simp at h
    | keepPolling => simp at h
    | stopStable n2 l2 =>
      simp only [WaitResult.stableQuiet.injEq] at h
      obtain ⟨hn, hl⟩ := h
      subst hn; subst hl
      obtain ⟨_, _, _, hge⟩ := should_poll_stopStable_inv hsp
      exact hge
  | succ fuel ih =>
    intro lu clock waits st n l h
    rcases hsp : should_poll sT mW started lu st.processRunning clock with ⟨d, c⟩
    rw [pollLoop.eq_def, hsp] at h
    cases d with
    | stopFinished => simp at h
    | raiseTimeout n2 l2 => simp at h
    | stopStable n2 l2 =>
      simp only [WaitResult.stableQuiet.injEq] at h
      obtain ⟨hn, hl⟩ := h
      subst hn; subst hl
      obtain ⟨_, _, _, hge⟩ := should_poll_stopStable_inv hsp
      exact hge
    | keepPolling =>
      simp only at h
      split_ifs at h with h1 h2
      · exact ih lu c (readyRead waits).2 st n l h
      · exact ih (timeRead c).1 (timeRead c).2 (readyRead waits).2 (update_screen E st).2 n l h
      · exact ih lu c (readyRead waits).2 (update_screen E st).2 n l h

/-! ### C3 -/

/-- C3: `wait_for_stable_output` returns immediately (stable, touching no
readiness oracle) when the process has already finished at the initial
drain, regardless of the stability window; it raises `TimedOut` only while
the process is still running, only when the time since the call began
exceeded `max_wait_sec` at the deciding check, and only while the screen
had not yet remained unchanged for `stable_time_sec`; and a quiet-stable
return happens only once the screen did remain unchanged for
`stable_time_sec`. -/
theorem C3_wait_for_stable_output_classification {σ : Type} (E : Emulator σ)
    (fuel : Nat) (sT mW : ℚ) (clock : List ℚ) (waits : List Bool)
    (st : TermState σ) :
    ((update_screen E st).2.processRunning = false →
      wait_for_stable_output E fuel sT mW clock waits st =
        (.stableFinished, (update_screen E st).2,
          (timeRead (timeRead clock).2).2, waits)) ∧
    (∀ n l, (wait_for_stable_output E fuel sT mW clock waits st).1 = .timedOut n l →
      (wait_for_stable_output E fuel sT mW clock waits st).2.1.processRunning = true ∧
      n - (timeRead clock).1 > mW ∧ n - l < sT) ∧
    (∀ n l, (wait_for_stable_output E fuel sT mW clock waits st).1 = .stableQuiet n l →
      n - l ≥ sT) := by
  refine ⟨?_, ?_, ?_⟩
  · intro h
    unfold wait_for_stable_output
    exact pollLoop_finished E sT mW (timeRead clock).1 fuel
      (timeRead (timeRead clock).2).1 (timeRead (timeRead clock).2).2 waits
      (update_screen E st).2 h
  · intro n l h
    exact pollLoop_timedOut E sT mW (timeRead clock).1 fuel
      (timeRead (timeRead clock).2).1 (timeRead (timeRead clock).2).2 waits
      (update_screen E st).2 n l h
  · intro n l h
    exact pollLoop_stableQuiet E sT mW (timeRead clock).1 fuel
      (timeRead (timeRead clock).2).1 (timeRead (timeRead clock).2).2 waits
      (update_screen E st).2 n l h

/-- Witness for C3 on concrete runs: an already-finished terminal returns
immediately with the readiness oracle untouched, and a running terminal
whose clock jumps past `max_wait_sec` with an unstable screen times out at
a check where indeed more than `max_wait_sec` elapsed since the start and
less than `stable_time_sec` since the last change. -/
theorem C3_wait_for_stable_output_witness :
    wait_for_stable_output logEmu 5 (1/10) 5 [0, 0, 99] [true] finishedState =
      (.stableFinished, finishedState, [99], [true]) ∧
    (wait_for_stable_output logEmu 1 20 5 [0, 0, 10] [] (sampleState [])).1 =
      .timedOut 10 0 ∧
    (wait_for_stable_output logEmu 1 20 5 [0, 0, 10] []
      (sampleState [])).2.1.processRunning = true ∧
    (10 : ℚ) - (timeRead [0, 0, 10]).1 > 5 ∧ (10 : ℚ) - 0 < 20 := by
  have h1 : (wait_for_stable_output logEmu 1 20 5 [0, 0, 10] []
      (sampleState [])).1 = .timedOut 10 0 := by
    norm_num [wait_for_stable_output, pollLoop, should_poll, timeRead,
      update_screen, drainGo, sampleState, logEmu, readyRead]
  obtain ⟨hr, hm, hs⟩ :=
    (C3_wait_for_stable_output_classification logEmu 1 20 5 [0, 0, 10] []
      (sampleState [])).2.1 10 0 h1
  refine ⟨?_, h1, hr, hm, hs⟩
  exact (C3_wait_for_stable_output_classification logEmu 5 (1/10) 5 [0, 0, 99]
    [true] finishedState).1 (by decide)

/-! ### C10 -/

/-- C10: the stability check precedes the timeout check: at a poll check
where the screen has been unchanged for at least `stable_time_sec` and the
total elapsed time has also already exceeded `max_wait_sec`, `should_poll`
stops normally (stable) rather than raising; consequently the loop never
reports `TimedOut` from a check at which the stability window had been
reached. -/
theorem C10_stability_check_precedes_timeout (sT mW started lu now : ℚ)
    (clock : List ℚ) (h1 : now - lu ≥ sT) (h2 : now - started > mW) :
    should_poll sT mW started lu true (now :: clock) = (.stopStable now lu, clock) ∧
    ∀ {σ : Type} (E : Emulator σ) (fuel : Nat) (clock2 : List ℚ)
      (waits : List Bool) (st : TermState σ) (n l : ℚ),
      (pollLoop E sT mW started fuel lu clock2 waits st).1 = .timedOut n l →
      n - l < sT := by
  constructor
  · simp [should_poll, timeRead, h1]
  · intro σ E fuel clock2 waits st n l h
    exact (pollLoop_timedOut E sT mW started fuel lu clock2 waits st n l h).2.2

/-- Witness for C10: with the screen stable for 10 seconds (window 1) and
the call 10 seconds old (maximum 5), the check stops normally. -/
theorem C10_stability_check_precedes_timeout_witness :
    should_poll 1 5 0 0 true [10] = (.stopStable 10 0, []) :=
  (C10_stability_check_precedes_timeout 1 5 0 0 10 [] (by norm_num)
    (by norm_num)).1

/-! ### C7 -/

/-- The post-state of `_get_attribute_at` is always the drained state,
whether or not the coordinates are in bounds: the drain precedes
validation. -/
theorem get_attribute_at_snd {σ α : Type} (E : Emulator σ) (st : TermState σ)
    (line column : Int) (get : σ → Int → Int → α) :
    (get_attribute_at E st line column get).2 = (update_screen E st).2 := rfl

/-- C7 counterexample: `get_string_at` with an out-of-bounds line raises
`OutsideBounds` while leaving the pending process output unconsumed and the
screen unchanged — it validates before draining, contradicting the claim
that every coordinate query drains first. -/
theorem C7_counterexample :
    (get_string_at logEmu (sampleState [.data [65]]) 100 0 1).1 =
      .error .outsideBounds ∧
    (get_string_at logEmu (sampleState [.data [65]]) 100 0 1).2.outputs =
      [.data [65]] ∧
    (get_string_at logEmu (sampleState [.data [65]]) 100 0 1).2.screen = [] := by
  refine ⟨?_, ?_, ?_⟩ <;> rfl

/-- C7 amended: `get_foreground_at`, `get_background_at` and `has_style_at`
drain all currently available output first and only then validate their
coordinates (so even an out-of-bounds call consumes and applies the
available bytes); `get_string_at` instead validates first — an out-of-bounds
call raises with the object state untouched, and only a valid call
drains. -/
theorem C7_drain_order {σ : Type} (E : Emulator σ) (st : TermState σ)
    (line column length : Int) (style : Style) :
    (get_foreground_at E st line column).2 = (update_screen E st).2 ∧
    (get_background_at E st line column).2 = (update_screen E st).2 ∧
    (has_style_at E st style line column).2 = (update_screen E st).2 ∧
    ((get_string_at E st line column length).1 = .error .outsideBounds →
      (get_string_at E st line column length).2 = st) ∧
    ((get_string_at E st line column length).1 ≠ .error .outsideBounds →
      (get_string_at E st line column length).2 = (update_screen E st).2) := by
  refine ⟨rfl, rfl, rfl, ?_, ?_⟩ <;>
    intro h <;>
    by_cases hb : (column < 0 ∨ column ≥ st.columns) ∨
        (column + length - 1 < 0 ∨ column + length - 1 ≥ st.columns) ∨
        (line < 0 ∨ line ≥ st.lines) ∨ length ≤ 0
  · simp only [get_string_at, if_pos hb]
  · simp only [get_string_at, if_neg hb] at h
    exact absurd h (by simp)
  · simp only [get_string_at, if_pos hb] at h
    exact absurd rfl h
  · simp only [get_string_at, if_neg hb]

/-- Witness for C7's amended statement on concrete states: an out-of-bounds
`get_string_at` leaves the state untouched, while an out-of-bounds
`get_foreground_at` still drains the pending chunk into the screen. -/
theorem C7_drain_order_witness :
    (get_string_at logEmu (sampleState [.data [66]]) (-1) 0 1).2 =
      sampleState [.data [66]] ∧
    (get_foreground_at logEmu (sampleState [.data [66]]) (-1) 0).2 =
      (update_screen logEmu (sampleState [.data [66]])).2 ∧
    (update_screen logEmu (sampleState [.data [66]])).2.screen = [[66]] := by
  refine ⟨(C7_drain_order logEmu (sampleState [.data [66]]) (-1) 0 1
    Style.BOLD).2.2.2.1 (by rfl),
    (C7_drain_order logEmu (sampleState [.data [66]]) (-1) 0 1 Style.BOLD).1,
    rfl⟩

/-! ### C8 -/

/-- With the process known finished, `_update_screen` is a no-op. -/
theorem update_screen_finished {σ : Type} (E : Emulator σ) (st : TermState σ)
    (h : st.processRunning = false) : update_screen E st = (false, st) := by
  simp [update_screen, h]

/-- One `Terminal` operation on a finished terminal keeps the flag false,
reads nothing from the harness and leaves the screen as it is. -/
theorem stepOp_finished {σ : Type} (E : Emulator σ) (w : World σ)
    (h : w.term.processRunning = false) (op : TermOp) :
    (stepOp E w op).term.processRunning = false ∧
    (stepOp E w op).term.outputs = w.term.outputs ∧
    (stepOp E w op).term.screen = w.term.screen := by
  have hu : update_screen E w.term = (false, w.term) :=
    update_screen_finished E w.term h
  cases op with
  | opUpdateScreen => simp [stepOp, hu, h]
  | opGetStringAt line column length =>
    simp only [stepOp, get_string_at]
    split
    · exact ⟨h, rfl, rfl⟩
    · simp [hu, h]
  | opGetForegroundAt line column =>
    simp [stepOp, get_foreground_at, get_attribute_at, hu, h]
  | opGetBackgroundAt line column =>
    simp [stepOp, get_background_at, get_attribute_at, hu, h]
  | opHasStyleAt style line column =>
    simp [stepOp, has_style_at, get_attribute_at, hu, h]
  | opWaitForOutput => exact ⟨h, rfl, rfl⟩
  | opWaitForStable fuel sT mW =>
    have hw : wait_for_stable_output E fuel sT mW w.clock w.waits w.term =
        (.stableFinished, w.term, (timeRead (timeRead w.clock).2).2, w.waits) := by
      unfold wait_for_stable_output
      rw [hu]
      exact pollLoop_finished E sT mW (timeRead w.clock).1 fuel
        (timeRead (timeRead w.clock).2).1 (timeRead (timeRead w.clock).2).2
        w.waits w.term h
    simp [stepOp, hw, h]
  | opSend characters => exact ⟨h, rfl, rfl⟩

/-- C8: once end-of-stream has been observed (the running flag is false),
every later sequence of operations — queries, waits, drains, sends — keeps
the flag false, never consumes a pending harness read, and leaves the
screen in its last state. -/
theorem C8_finished_flag_permanent {σ : Type} (E : Emulator σ) :
    ∀ (ops : List TermOp) (w : World σ), w.term.processRunning = false →
      (runOps E w ops).term.processRunning = false ∧
      (runOps E w ops).term.outputs = w.term.outputs ∧
      (runOps E w ops).term.screen = w.term.screen := by
  intro ops
  induction ops with
  | nil => intro w h; exact ⟨h, rfl, rfl⟩
  | cons op rest ih =>
    intro w h
    obtain ⟨h1, h2, h3⟩ := stepOp_finished E w h op
    obtain ⟨g1, g2, g3⟩ := ih (stepOp E w op) h1
    exact ⟨g1, g2.trans h2, g3.trans h3⟩

/-- Witness for C8 on a concrete finished terminal and a concrete sequence
of operations: flag stays false, the stray pending read outcome is never
consumed, the screen survives untouched. -/
theorem C8_finished_flag_permanent_witness :
    (runOps logEmu ⟨finishedState, [0, 0, 1, 2], [true, true]⟩
      [.opUpdateScreen, .opGetStringAt 0 0 1, .opGetForegroundAt 1 1,
       .opWaitForStable 3 1 5, .opWaitForOutput,
       .opSend [104]]).term.processRunning = false ∧
    (runOps logEmu ⟨finishedState, [0, 0, 1, 2], [true, true]⟩
      [.opUpdateScreen, .opGetStringAt 0 0 1, .opGetForegroundAt 1 1,
       .opWaitForStable 3 1 5, .opWaitForOutput,
       .opSend [104]]).term.outputs = finishedState.outputs ∧
    (runOps logEmu ⟨finishedState, [0, 0, 1, 2], [true, true]⟩
      [.opUpdateScreen, .opGetStringAt 0 0 1, .opGetForegroundAt 1 1,
       .opWaitForStable 3 1 5, .opWaitForOutput,
       .opSend [104]]).term.screen = finishedState.screen :=
  C8_finished_flag_permanent logEmu
    [.opUpdateScreen, .opGetStringAt 0 0 1, .opGetForegroundAt 1 1,
     .opWaitForStable 3 1 5, .opWaitForOutput, .opSend [104]]
    ⟨finishedState, [0, 0, 1, 2], [true, true]⟩ rfl

/-! ### C9 -/

/-- C9 counterexample: `ColorNamed` has exactly 17 members — the 16 named
colors plus `DEFAULT` — with no 18th unrecognized-color sentinel, and a
color query meeting an unrecognized color raises the `UnrecognizedColor`
exception instead of surfacing a value of the enumeration. -/
theorem C9_counterexample :
    ColorNamed.all.length = 17 ∧ ColorNamed.all.Nodup ∧
    (∀ c : ColorNamed, c ∈ ColorNamed.all) ∧
    (get_foreground_at unrecEmu (sampleState []) 0 0).1 =
      .error .unrecognizedColor := by
  refine ⟨rfl, by decide, ?_, rfl⟩
  intro c
  cases c <;> decide

/-- C9 amended: the named-16-color enumeration consists of the 16 named
colors plus `DEFAULT` only; a color query whose cell color is neither in
the pyte color map nor a 6-hex-digit RGB string surfaces it as the
`UnrecognizedColor` exception, not as a value of the enumeration. -/
theorem C9_colornamed_and_unrecognized {σ : Type} (E : Emulator σ)
    (st : TermState σ) (line column : Int)
    (hb : ¬outside_bounds (update_screen E st).2 line column)
    (hmap : lookupPyteColor pyteToColorNamedMap
      (E.cellFg (update_screen E st).2.screen line column) = none)
    (hrgb : is_rgb_string
      (E.cellFg (update_screen E st).2.screen line column) = false) :
    ColorNamed.all.length = 17 ∧ ColorNamed.all.Nodup ∧
    (∀ c : ColorNamed, c ∈ ColorNamed.all) ∧
    (get_foreground_at E st line column).1 = .error .unrecognizedColor := by
  refine ⟨rfl, by decide, fun c => by cases c <;> decide, ?_⟩
  simp only [get_foreground_at, get_attribute_at, if_neg hb]
  simp [decodeColor, hmap, hrgb]

/-- Witness for C9's amended statement: on a concrete emulator reporting
the color string "nonsense", an in-bounds foreground query raises
`UnrecognizedColor`. -/
theorem C9_colornamed_and_unrecognized_witness :
    ColorNamed.all.length = 17 ∧ ColorNamed.all.Nodup ∧
    (∀ c : ColorNamed, c ∈ ColorNamed.all) ∧
    (get_foreground_at unrecEmu (sampleState []) 2 3).1 =
      .error .unrecognizedColor :=
  C9_colornamed_and_unrecognized unrecEmu (sampleState []) 2 3
    (by decide) rfl rfl

/-! ### Witnesses for C1 and C2 -/

/-- Witness for C1 on an 80×24 terminal: the full first line is a valid
request; one character more raises `OutsideBounds`. -/
theorem C1_get_string_at_bounds_witness :
    (∃ cs, (get_string_at logEmu (sampleState []) 0 0 80).1 = .ok cs) ∧
    (get_string_at logEmu (sampleState []) 0 0 81).1 = .error .outsideBounds := by
  constructor
  · exact ((C1_get_string_at_bounds logEmu (sampleState []) 0 0 80).2).2
      (by refine ⟨by norm_num, ?_, by norm_num, ?_, by norm_num, ?_⟩ <;> decide)
  · exact ((C1_get_string_at_bounds logEmu (sampleState []) 0 0 81).1).2
      (by intro hc; have := hc.2.2.2.2.2; revert this; decide)

/-- Witness for C2 at concrete read outcomes: `EIO` with everything
redirected is absorbed; `EIO` otherwise and an empty read raise
`ProcessFinished`; a would-block error yields the empty string. -/
theorem C2_get_new_output_eof_witness :
    get_new_output true true true (.osErr eioErrno) = .ok [] ∧
    get_new_output true true false (.osErr eioErrno) = .error .processFinished ∧
    get_new_output false false false (.ok []) = .error .processFinished ∧
    get_new_output true true true .blockingErr = .ok [] := by
  refine ⟨(C2_get_new_output_eof true true true (.osErr eioErrno)).2.1
    ⟨rfl, rfl, rfl⟩, ?_, ?_,
    (C2_get_new_output_eof true true true .blockingErr).2.2⟩
  · exact ((C2_get_new_output_eof true true false (.osErr eioErrno)).1).2
      (Or.inr ⟨rfl, by simp⟩)
  · exact ((C2_get_new_output_eof false false false (.ok [])).1).2 (Or.inl rfl)

end Tuitest
